import Mathlib

/-!
Shallow embedding of the synchronization and reconciliation engine of the
Mini-Colab admin dashboard (src/frontend/src/components/AdminDashboard.tsx).

JavaScript object identity matters to the merge logic: the code uses strict
equality (===) on whole rows and on the nested jobs arrays.  Rows, jobs
arrays and the aggregate record therefore carry an explicit identity tag
`ref`, playing the role of a heap address: two structurally equal objects
produced by two different JSON.parse calls have distinct tags.  JS numbers
are modelled as rationals for the float-valued percent fields, integers
for byte counts, and naturals for pids, elapsed seconds and counters.
-/

/-- One backend job entry.  The TS interface also lists optional
cpu_percent and mem_percent fields, but no modelled computation reads
them: the merger compares whole jobs arrays by reference only, and the
reconciliation step reads only `pid`; they are therefore omitted. -/
structure AdminJobRow where
  pid : Nat
  command : String
  elapsed_seconds : Nat
deriving DecidableEq, Repr

/-- A JS array of job rows together with its object identity (`ref`): two
arrays produced by different JSON.parse calls are distinct objects even
when their elements are structurally equal, and shallowEqual compares the
jobs field with strict (reference) equality. -/
structure JobsArray where
  ref : Nat
  items : List AdminJobRow
deriving DecidableEq, Repr

/-- One session row of a fleet snapshot (TS interface AdminUserRow).
Optional fields model JSON key presence: `none` means the key is absent
from the parsed object.  `shell_pid` can also be present with value null,
hence the nested Option. -/
structure AdminUserRow where
  ref : Nat
  username : String
  container_id : String
  status : String
  cpu_percent : Rat
  mem_usage : Int
  mem_percent : Rat
  workspace_size : Int
  quota_bytes : Option Int
  shell_pid : Option (Option Int)
  jobs : Option JobsArray
deriving DecidableEq, Repr

/-- Aggregate fleet statistics (TS interface AdminStatsOverall), with its
object identity. -/
structure AdminStatsOverall where
  ref : Nat
  containers : Nat
  total_cpu_percent : Rat
  total_mem_usage : Int
  total_mem_percent : Rat
deriving DecidableEq, Repr

/-- One full fleet snapshot (TS interface AdminStatsResponse). -/
structure AdminStatsResponse where
  overall : AdminStatsOverall
  users : List AdminUserRow
deriving DecidableEq, Repr

/-- Strict JS equality of the optional `jobs` field, as evaluated by the
key loop of shallowEqual: true when the key is absent from both objects
(undefined === undefined), or present on both and referring to the same
array object; an array is never strictly equal to undefined or to a
distinct array object, however equal their contents. -/
def jobsRefEq : Option JobsArray → Option JobsArray → Bool
  | none, none => true
  | some ja, some jb => ja.ref == jb.ref
  | _, _ => false

/-- shallowEqual (AdminDashboard.tsx lines 76-86) specialised to two user
rows.  The generic JS function returns true when a === b (same object);
otherwise it requires Object.keys(a).length === Object.keys(b).length and,
for every key k of a, a[k] === b[k].  For parsed user rows the keys are
the eight always-present fields plus quota_bytes / shell_pid / jobs when
present.  When the key sets differ the function returns false: either the
key counts differ, or some key of a is missing from b, and then b[k] is
undefined while a[k], being JSON-produced, never is, so a[k] === b[k]
fails.  When the key sets agree, per-key strict equality is value equality
on the strings and numbers, null/number equality on shell_pid, and
reference equality on the jobs array.  The conjunction below is exactly
that: Option-valued field equality captures both the key-presence check
and the per-key value check, and jobsRefEq the reference comparison. -/
def shallowEqualUser (a b : AdminUserRow) : Bool :=
  a.ref == b.ref ||
    (a.username == b.username && a.container_id == b.container_id &&
     a.status == b.status && a.cpu_percent == b.cpu_percent &&
     a.mem_usage == b.mem_usage && a.mem_percent == b.mem_percent &&
     a.workspace_size == b.workspace_size && a.quota_bytes == b.quota_bytes &&
     a.shell_pid == b.shell_pid && jobsRefEq a.jobs b.jobs)

/-- shallowEqual specialised to two aggregate records: same object, or all
four always-present numeric fields strictly equal. -/
def shallowEqualOverall (a b : AdminStatsOverall) : Bool :=
  a.ref == b.ref ||
    (a.containers == b.containers &&
     a.total_cpu_percent == b.total_cpu_percent &&
     a.total_mem_usage == b.total_mem_usage &&
     a.total_mem_percent == b.total_mem_percent)

/-- Lookup in the Map built by mergeStats: prev.users is inserted in order
with map.set, so a later row with the same username overwrites an earlier
one, and mapPrev.get finds the last matching row. -/
def mapPrevGet (users : List AdminUserRow) (uname : String) : Option AdminUserRow :=
  users.reverse.find? (fun p => p.username == uname)

/-- mergeStats (AdminDashboard.tsx lines 88-99): with no previous view the
new snapshot is returned as is; otherwise each new row is replaced by the
previous row with the same username when shallowEqual holds, and the
aggregate likewise. -/
def mergeStats : Option AdminStatsResponse → AdminStatsResponse → AdminStatsResponse
  | none, next => next
  | some prev, next =>
    { overall :=
        if shallowEqualOverall prev.overall next.overall then prev.overall
        else next.overall
      users := next.users.map (fun u =>
        match mapPrevGet prev.users u.username with
        | some p => if shallowEqualUser p u then p else u
        | none => u) }

/-- Key under which a pending kill is recorded (confirmKillJob, line 414):
the JS template literal username ++ ":" ++ decimal rendering of the pid. -/
def killKey (uname : String) (pid : Nat) : String :=
  uname ++ ":" ++ toString pid

/-- JS String.prototype.split at the character ':' with no limit: the list
of maximal separator-free segments, one more than the number of
separators; the empty string yields one empty segment, exactly as in JS. -/
def splitColon : List Char → List (List Char)
  | [] => [[]]
  | c :: cs =>
    if c = ':' then [] :: splitColon cs
    else
      match splitColon cs with
      | [] => [[c]]
      | seg :: rest => (c :: seg) :: rest

/-- JS key.split(":", 2) (ws.onmessage, line 186): the split limited to
its first two segments. -/
def jsSplitTwo (key : String) : List String :=
  ((splitColon key.data).map fun cs => String.mk cs).take 2

/-- Username produced by the destructuring `const [uname, pidStr] = ...`:
the first segment of the limited split.  A split is never empty, so the
default is never reached. -/
def parsedUser (key : String) : String :=
  ((jsSplitTwo key).get? 0).getD ""

/-- JS Number applied to the second destructured segment, as used for the
pid set membership test.  `none` models both the NaN produced from a
non-numeric segment and the NaN from Number(undefined) when the split had
a single segment; a Set of pids never contains NaN, so `none` never
matches.  Number("") is 0 in JS.  Other exotic numeric shapes JS would
accept (whitespace, signs, exponents, hex) are mapped to `none`; they can
arise only from a username whose own text mimics such a numeral and no
statement below depends on them. -/
def jsNumberPid : Option String → Option Nat
  | none => none
  | some s => if s = "" then some 0 else s.toNat?

/-- Pid parsed back out of a pending key (ws.onmessage, line 187). -/
def parsedPid (key : String) : Option Nat :=
  jsNumberPid ((jsSplitTwo key).get? 1)

/-- JS (u.jobs || []): the jobs array's elements, or no elements when the
key is absent. -/
def jobsItems : Option JobsArray → List AdminJobRow
  | none => []
  | some ja => ja.items

/-- Pid list of the session a username maps to in the userMap built by the
reconciliation step (ws.onmessage, lines 180-184): users are inserted in
order with map.set, so a later duplicate username overwrites an earlier
one; `none` when no session has the username.  The JS code stores a Set of
pids; only membership is ever queried, for which the list is equivalent. -/
def userPids (users : List AdminUserRow) (uname : String) : Option (List Nat) :=
  (users.reverse.find? fun u => u.username == uname).map
    fun u => (jobsItems u.jobs).map AdminJobRow.pid

/-- One pending key survives reconciliation when the username parsed from
it maps to a session whose pid set contains the parsed pid (ws.onmessage,
lines 185-194); a missing session, like a NaN pid, fails the test. -/
def keepKilling (parsed : AdminStatsResponse) (key : String) : Bool :=
  match userPids parsed.users (parsedUser key), parsedPid key with
  | some pids, some pid => pids.contains pid
  | _, _ => false

/-- setKillingJobs updater run on each successfully parsed snapshot
(ws.onmessage, lines 177-196): an empty set is returned as is; otherwise
exactly the keys passing keepKilling survive, in iteration order. -/
def reconcileKilling (prev : List String) (parsed : AdminStatsResponse) :
    List String :=
  if prev.isEmpty then prev else prev.filter (keepKilling parsed)

/-- JS Set.add on an insertion-ordered duplicate-free list: adding a
present key is a no-op, a new key goes to the end. -/
def setAdd (l : List String) (k : String) : List String :=
  if l.contains k then l else l ++ [k]

/-- JS Set.delete: removes the at most one occurrence the set can hold; on
the duplicate-free lists a Set yields, dropping every occurrence agrees
with it. -/
def setDelete (l : List String) (k : String) : List String :=
  l.filter fun x => x != k

/-- Notice pushed through pushNotice. -/
structure Notice where
  kind : String
  title : String
  message : String
deriving DecidableEq, Repr

/-- State owned by the dashboard's synchronization engine: the cancelled
flag of the websocket effect, the reconnect counter ref, the merged stats
(with the mirror kept in lastStatsRef), the pending-kill key set, and the
notices surfaced so far. -/
structure DashState where
  cancelled : Bool
  reconnectAttempts : Nat
  stats : Option AdminStatsResponse
  lastStats : Option AdminStatsResponse
  killingJobs : List String
  notices : List Notice
deriving DecidableEq, Repr

/-- Externally visible effect of one handler run: whether it constructed a
new WebSocket, and the backoff delay of a setTimeout(connect, delay) call
when one was scheduled. -/
structure StepEffect where
  opensSocket : Bool
  schedulesReconnect : Option Nat
deriving DecidableEq, Repr

def noEffect : StepEffect :=
  { opensSocket := false, schedulesReconnect := none }

/-- Events the engine reacts to.  socketMessage carries the decoded
snapshot, or none when JSON.parse threw on the payload.  killIssued is the
optimistic marking done by confirmKillJob before the control call
resolves; killFailed is its rejection handler. -/
inductive DashEvent where
  | socketOpen
  | socketMessage (payload : Option AdminStatsResponse)
  | socketClose
  | timerFire
  | teardown
  | killIssued (uname : String) (pid : Nat)
  | killFailed (uname : String) (pid : Nat) (message : String)
deriving DecidableEq, Repr

/-- Backoff delay computed by ws.onclose (line 203) once the counter holds
the value `attempt`: min(15000, 800 * 2^(attempt - 1)) milliseconds. -/
def reconnectDelay (attempt : Nat) : Nat :=
  min 15000 (800 * 2 ^ (attempt - 1))

/-- One handler run of the engine (AdminDashboard.tsx lines 160-209 and
412-431), run to completion before the next event:
ws.onopen resets the reconnect counter; ws.onmessage either drops an
undecodable payload inside its catch or merges the snapshot and
reconciles the pending kills; ws.onclose returns at once when the effect
was cancelled and otherwise increments the counter and schedules a
reconnect; a fired backoff timer runs connect, which returns at once when
cancelled and otherwise opens a socket; the effect cleanup sets the
cancelled flag; confirmKillJob optimistically adds the pending key; its
catch deletes the key and pushes the error notice, leaving the stats
alone. -/
def step (s : DashState) : DashEvent → DashState × StepEffect
  | .socketOpen => ({ s with reconnectAttempts := 0 }, noEffect)
  | .socketMessage none => (s, noEffect)
  | .socketMessage (some parsed) =>
      let merged := mergeStats s.stats parsed
      ({ s with stats := some merged, lastStats := some merged,
                killingJobs := reconcileKilling s.killingJobs parsed },
       noEffect)
  | .socketClose =>
      if s.cancelled then (s, noEffect)
      else
        ({ s with reconnectAttempts := s.reconnectAttempts + 1 },
         { opensSocket := false,
           schedulesReconnect := some (reconnectDelay (s.reconnectAttempts + 1)) })
  | .timerFire =>
      if s.cancelled then (s, noEffect)
      else (s, { opensSocket := true, schedulesReconnect := none })
  | .teardown => ({ s with cancelled := true }, noEffect)
  | .killIssued uname pid =>
      ({ s with killingJobs := setAdd s.killingJobs (killKey uname pid) },
       noEffect)
  | .killFailed uname pid msg =>
      ({ s with killingJobs := setDelete s.killingJobs (killKey uname pid),
                notices := s.notices ++
                  [{ kind := "error", title := "Kill Failed", message := msg }] },
       noEffect)

/-- State reached after n consecutive socketClose events. -/
def closeIter (s : DashState) : Nat → DashState
  | 0 => s
  | n + 1 => (step (closeIter s n) DashEvent.socketClose).1

/-- Delay scheduled by the n-th (n counted from 1) of a run of consecutive
socketClose events starting from s. -/
def nthCloseDelay (s : DashState) (n : Nat) : Option Nat :=
  (step (closeIter s (n - 1)) DashEvent.socketClose).2.schedulesReconnect

/-- Effects of a sequence of events processed in order. -/
def runEffects (s : DashState) : List DashEvent → List StepEffect
  | [] => []
  | e :: es => (step s e).2 :: runEffects (step s e).1 es

/-- State after a sequence of events processed in order. -/
def runState (s : DashState) : List DashEvent → DashState
  | [] => s
  | e :: es => runState (step s e).1 es

/-- Sort keys of the user table (TS type SortKey). -/
inductive SortKey where
  | username
  | cpu
  | mem
  | storage
  | status
deriving DecidableEq, Repr

/-- String.prototype.localeCompare modelled as lexicographic code-point
comparison mapped to -1/0/1.  The real collation is locale-dependent; the
statements below need only a comparison agreeing with code-point order on
the plain ASCII names they mention. -/
def localeCmp (a b : String) : Int :=
  match compare a b with
  | Ordering.lt => -1
  | Ordering.eq => 0
  | Ordering.gt => 1

/-- JS (q || 1) in the storage comparator (line 242): undefined and 0 are
falsy, so the divisor is 1 when the quota_bytes key is absent or zero. -/
def quotaOrOne : Option Int → Int
  | none => 1
  | some q => if q = 0 then 1 else q

/-- Storage ratio the comparator actually sorts by:
workspace_size / (quota_bytes || 1). -/
def storageRatio (u : AdminUserRow) : Rat :=
  (u.workspace_size : Rat) / (quotaOrOne u.quota_bytes : Rat)

/-- Comparator passed to Array.prototype.sort (filteredUsers, lines
236-249), as a signed rational: username and status by localeCompare,
cpu and mem by difference of the percent fields, storage by difference of
the workspace/quota ratios, everything multiplied by the direction. -/
def rowCmp (k : SortKey) (dir : Int) (a b : AdminUserRow) : Rat :=
  match k with
  | SortKey.username => (localeCmp a.username b.username : Rat) * (dir : Rat)
  | SortKey.cpu => (a.cpu_percent - b.cpu_percent) * (dir : Rat)
  | SortKey.mem => (a.mem_percent - b.mem_percent) * (dir : Rat)
  | SortKey.storage => (storageRatio a - storageRatio b) * (dir : Rat)
  | SortKey.status => (localeCmp a.status b.status : Rat) * (dir : Rat)

/-- Insertion into an already sorted list: the new element passes every
element comparing strictly below it and stops in front of the first other
one, so an element placed later never jumps over a tie.  This is the
stable order Array.prototype.sort is specified to produce. -/
def insertCmp {α : Type} (cmp : α → α → Rat) (x : α) : List α → List α
  | [] => [x]
  | y :: ys => if cmp x y ≤ 0 then x :: y :: ys else y :: insertCmp cmp x ys

/-- Stable sort by a JS comparator.  ECMAScript requires Array.sort to be
stable, and for a consistent comparator every stable sort returns the same
list, so insertion sort embeds the call [...rows].sort(cmp) faithfully;
the spread copy also means the input list is left untouched, which a pure
function cannot help doing. -/
def sortCmp {α : Type} (cmp : α → α → Rat) : List α → List α
  | [] => []
  | x :: xs => insertCmp cmp x (sortCmp cmp xs)

/-- JS s.includes(sub): some position of s starts the substring. -/
def containsSub (s sub : String) : Bool :=
  (List.range (s.length + 1)).any fun i => (s.drop i).startsWith sub

/-- Rows surviving the filter box (filteredUsers, lines 230-235): all rows
of the current stats when the trimmed filter text is empty, otherwise the
rows whose lowercased username contains the trimmed lowercased text. -/
def matchingRows (stats : Option AdminStatsResponse) (ftext : String) :
    List AdminUserRow :=
  match stats with
  | none => []
  | some st =>
    if ftext.trim ≠ "" then
      st.users.filter fun r => containsSub r.username.toLower ftext.trim.toLower
    else st.users

/-- The filteredUsers memo (lines 229-251): filter, then stable sort by
the active comparator. -/
def filteredUsers (stats : Option AdminStatsResponse) (ftext : String)
    (k : SortKey) (dir : Int) : List AdminUserRow :=
  sortCmp (rowCmp k dir) (matchingRows stats ftext)

/-- Quota displayed by renderStorageText (lines 452-455): JS
(u.quota_bytes || 50*1024*1024), so the 50 MiB floor applies when the key
is absent or the value is zero. -/
def renderQuota (u : AdminUserRow) : Int :=
  match u.quota_bytes with
  | none => 50 * 1024 * 1024
  | some q => if q = 0 then 50 * 1024 * 1024 else q

/-- Job triples (pid, command, elapsedSeconds) of a row's jobs field. -/
def jobTriples (j : Option JobsArray) : List (Nat × String × Nat) :=
  (jobsItems j).map fun jr => (jr.pid, jr.command, jr.elapsed_seconds)

/-- Equality of two jobs fields as sets of (pid, command, elapsedSeconds)
triples: the comparison the specification prescribes for nested jobs. -/
def jobsSetEq (a b : Option JobsArray) : Bool :=
  ((jobTriples a).all fun t => (jobTriples b).contains t) &&
  ((jobTriples b).all fun t => (jobTriples a).contains t)

/-- Field-by-field row equality in the sense of the specification text:
every scalar field equal and the nested jobs equal as sets of triples,
with object identity playing no part. -/
def specRowFieldsEq (a b : AdminUserRow) : Bool :=
  a.username == b.username && a.container_id == b.container_id &&
  a.status == b.status && a.cpu_percent == b.cpu_percent &&
  a.mem_usage == b.mem_usage && a.mem_percent == b.mem_percent &&
  a.workspace_size == b.workspace_size && a.quota_bytes == b.quota_bytes &&
  a.shell_pid == b.shell_pid && jobsSetEq a.jobs b.jobs

/-- Field-by-field row equality as the amended reading of the merge rule
words it: every scalar field equal and the jobs fields strictly equal as
JS values, that is, absent from both rows or one and the same array
object. -/
def specRowFieldsEqRef (a b : AdminUserRow) : Bool :=
  a.username == b.username && a.container_id == b.container_id &&
  a.status == b.status && a.cpu_percent == b.cpu_percent &&
  a.mem_usage == b.mem_usage && a.mem_percent == b.mem_percent &&
  a.workspace_size == b.workspace_size && a.quota_bytes == b.quota_bytes &&
  a.shell_pid == b.shell_pid && jobsRefEq a.jobs b.jobs

/-- Storage ratio as the specification words it: workspaceSizeBytes
divided by quotaBytes, with the fixed 50 MiB system quota floor applied
when quotaBytes is absent. -/
def specStorageRatio (u : AdminUserRow) : Rat :=
  (u.workspace_size : Rat) / ((u.quota_bytes.getD (50 * 1024 * 1024) : Int) : Rat)

/-- Template row for concrete instances; every concrete session below
overrides the fields it cares about. -/
def cxBase : AdminUserRow :=
  { ref := 0, username := "", container_id := "c0ffee", status := "running",
    cpu_percent := 10, mem_usage := 1000, mem_percent := 5,
    workspace_size := 1000, quota_bytes := some 52428800,
    shell_pid := some (some 7), jobs := none }

/-- A concrete job row. -/
def cxJob : AdminJobRow :=
  { pid := 42, command := "python train.py", elapsed_seconds := 5 }

/-- Aggregate record of the concrete snapshots. -/
def cxOverall : AdminStatsOverall :=
  { ref := 100, containers := 1, total_cpu_percent := 10,
    total_mem_usage := 1000, total_mem_percent := 5 }

/-- The same aggregate values as a fresh object from a later parse. -/
def cxOverallB : AdminStatsOverall :=
  { cxOverall with ref := 200 }

/-- Previous-view row of bob whose jobs array holds cxJob. -/
def cxPrevRow : AdminUserRow :=
  { cxBase with
    ref := 1
    username := "bob"
    jobs := some { ref := 10, items := [cxJob] } }

/-- Row of bob from the next parse: all fields structurally identical to
cxPrevRow, but a distinct row object holding a distinct jobs array. -/
def cxNextRow : AdminUserRow :=
  { cxBase with
    ref := 2
    username := "bob"
    jobs := some { ref := 20, items := [cxJob] } }

def cxPrevStats : AdminStatsResponse :=
  { overall := cxOverall, users := [cxPrevRow] }

def cxNextStats : AdminStatsResponse :=
  { overall := cxOverallB, users := [cxNextRow] }

/-- Jobless row of carol in the previous view. -/
def w1PrevRow : AdminUserRow :=
  { cxBase with ref := 5, username := "carol" }

/-- The same jobless row of carol from the next parse. -/
def w1NextRow : AdminUserRow :=
  { cxBase with ref := 6, username := "carol" }

def w1PrevStats : AdminStatsResponse :=
  { overall := cxOverall, users := [w1PrevRow] }

def w1NextStats : AdminStatsResponse :=
  { overall := cxOverallB, users := [w1NextRow] }

/-- A session whose username itself contains a colon and lists job 9. -/
def c3Row : AdminUserRow :=
  { cxBase with
    ref := 7
    username := "x:7"
    jobs := some { ref := 30, items := [{ pid := 9, command := "sleep 100", elapsed_seconds := 3 }] } }

def c3Stats : AdminStatsResponse :=
  { overall := cxOverall, users := [c3Row] }

/-- Snapshot still listing pid 42 under bob. -/
def bobRow42 : AdminUserRow :=
  { cxBase with
    ref := 8
    username := "bob"
    jobs := some { ref := 31, items := [{ pid := 42, command := "python", elapsed_seconds := 12 }] } }

def snapWith42 : AdminStatsResponse :=
  { overall := cxOverall, users := [bobRow42] }

/-- Snapshot no longer listing pid 42 under bob. -/
def bobRowNo42 : AdminUserRow :=
  { cxBase with ref := 9, username := "bob", jobs := some { ref := 32, items := [] } }

def snapWithout42 : AdminStatsResponse :=
  { overall := cxOverall, users := [bobRowNo42] }

/-- Row without a quota_bytes key and a 1000-byte workspace. -/
def c8RowA : AdminUserRow :=
  { cxBase with
    ref := 11
    username := "amy"
    workspace_size := 1000
    quota_bytes := none }

/-- Row at the 50 MiB quota with a 2000-byte workspace. -/
def c8RowB : AdminUserRow :=
  { cxBase with
    ref := 12
    username := "bob"
    workspace_size := 2000
    quota_bytes := some 52428800 }

def c9Bob : AdminUserRow :=
  { cxBase with ref := 13, username := "bob", cpu_percent := 10 }

def c9Amy : AdminUserRow :=
  { cxBase with ref := 14, username := "amy", cpu_percent := 10 }

def c9Stats : AdminStatsResponse :=
  { overall := cxOverall, users := [c9Bob, c9Amy] }

/-- Session a, listing job 1. -/
def c10RowA : AdminUserRow :=
  { cxBase with
    ref := 15
    username := "a"
    jobs := some { ref := 40, items := [{ pid := 1, command := "sh", elapsed_seconds := 2 }] } }

/-- Session a:1, still listing the targeted job 7. -/
def c10RowB : AdminUserRow :=
  { cxBase with
    ref := 16
    username := "a:1"
    jobs := some { ref := 41, items := [{ pid := 7, command := "sh", elapsed_seconds := 2 }] } }

def c10Stats : AdminStatsResponse :=
  { overall := cxOverall, users := [c10RowA, c10RowB] }

/-- Freshly mounted dashboard state: not cancelled, counter at zero. -/
def initState : DashState :=
  { cancelled := false, reconnectAttempts := 0, stats := none,
    lastStats := none, killingJobs := [], notices := [] }

theorem toDigitsCore_shift (f : Nat) : ∀ (n : Nat) (ds : List Char),
    Nat.toDigitsCore 10 f n ds = Nat.toDigitsCore 10 f n [] ++ ds := by
  induction f with
  | zero => intro n ds; rfl
  | succ f ih =>
    intro n ds
    simp only [Nat.toDigitsCore]
    by_cases h : n / 10 = 0
    · simp [h]
    · simp only [h, if_false]
      rw [ih (n / 10) (Nat.digitChar (n % 10) :: ds),
        ih (n / 10) [Nat.digitChar (n % 10)]]
      simp

theorem toDigitsCore_succ (f n : Nat) :
    Nat.toDigitsCore 10 (f + 1) n [] =
      if n / 10 = 0 then [Nat.digitChar (n % 10)]
      else Nat.toDigitsCore 10 f (n / 10) [] ++ [Nat.digitChar (n % 10)] := by
  simp only [Nat.toDigitsCore]
  by_cases h : n / 10 = 0
  · simp [h]
  · simp only [h, if_false]
    exact toDigitsCore_shift f (n / 10) [Nat.digitChar (n % 10)]

theorem toDigitsCore_ne_nil (f n : Nat) : Nat.toDigitsCore 10 (f + 1) n [] ≠ [] := by
  rw [toDigitsCore_succ]
  by_cases h : n / 10 = 0 <;> simp [h]

theorem digitChar_isDigit : ∀ m, m < 10 → (Nat.digitChar m).isDigit = true := by
  decide

theorem digitChar_val : ∀ m, m < 10 →
    (Nat.digitChar m).toNat - Char.toNat '0' = m := by
  decide

theorem toDigitsCore_digits : ∀ n f, n < f →
    ∀ c ∈ Nat.toDigitsCore 10 f n [], c.isDigit = true := by
  intro n
  induction n using Nat.strong_induction_on with
  | _ n ih =>
    intro f hf c hc
    obtain ⟨f, rfl⟩ : ∃ k, f = k + 1 := ⟨f - 1, by omega⟩
    rw [toDigitsCore_succ] at hc
    by_cases h : n / 10 = 0
    · rw [if_pos h] at hc
      simp only [List.mem_singleton] at hc
      subst hc
      exact digitChar_isDigit _ (Nat.mod_lt _ (by norm_num))
    · rw [if_neg h] at hc
      rcases List.mem_append.1 hc with hc | hc
      · have hn : 0 < n := by omega
        exact ih (n / 10) (Nat.div_lt_self hn (by norm_num)) f (by omega) c hc
      · simp only [List.mem_singleton] at hc
        subst hc
        exact digitChar_isDigit _ (Nat.mod_lt _ (by norm_num))

theorem toDigitsCore_foldl : ∀ n f, n < f → ∀ acc : Nat,
    List.foldl (fun m c => m * 10 + (c.toNat - Char.toNat '0')) acc
        (Nat.toDigitsCore 10 f n []) =
      acc * 10 ^ (Nat.toDigitsCore 10 f n []).length + n := by
  intro n
  induction n using Nat.strong_induction_on with
  | _ n ih =>
    intro f hf acc
    obtain ⟨f, rfl⟩ : ∃ k, f = k + 1 := ⟨f - 1, by omega⟩
    rw [toDigitsCore_succ]
    by_cases h : n / 10 = 0
    · have hlt : n < 10 := by omega
      rw [if_pos h]
      simp only [List.foldl_cons, List.foldl_nil, List.length_singleton, pow_one]
      rw [digitChar_val _ (Nat.mod_lt _ (by norm_num)), Nat.mod_eq_of_lt hlt]
    · rw [if_neg h]
      have hn : 0 < n := by omega
      have hd : n / 10 < n := Nat.div_lt_self hn (by norm_num)
      rw [List.foldl_append]
      simp only [List.foldl_cons, List.foldl_nil, List.length_append,
        List.length_singleton]
      rw [ih (n / 10) hd f (by omega) acc,
        digitChar_val _ (Nat.mod_lt _ (by norm_num))]
      calc (acc * 10 ^ (Nat.toDigitsCore 10 f (n / 10) []).length + n / 10) * 10
            + n % 10
          = acc * (10 ^ (Nat.toDigitsCore 10 f (n / 10) []).length * 10)
            + (10 * (n / 10) + n % 10) := by ring
        _ = acc * 10 ^ ((Nat.toDigitsCore 10 f (n / 10) []).length + 1) + n := by
            rw [← pow_succ, Nat.div_add_mod]

theorem repr_data (n : Nat) :
    (Nat.repr n).data = Nat.toDigitsCore 10 (n + 1) n [] := rfl

theorem repr_all_digits (n : Nat) : ∀ c ∈ (Nat.repr n).data, c.isDigit = true := by
  rw [repr_data]
  exact toDigitsCore_digits n (n + 1) (Nat.lt_succ_self n)

theorem repr_ne_empty (n : Nat) : Nat.repr n ≠ "" := by
  intro e
  have : (Nat.repr n).data = [] := by rw [e]
  rw [repr_data] at this
  exact toDigitsCore_ne_nil n n this

theorem repr_no_colon (n : Nat) : ':' ∉ (Nat.repr n).data := by
  intro hmem
  have := repr_all_digits n ':' hmem
  simp at this

theorem toNat?_repr (n : Nat) : (Nat.repr n).toNat? = some n := by
  have hNat : (Nat.repr n).isNat = true := by
    simp only [String.isNat, Bool.and_eq_true, Bool.not_eq_true']
    refine ⟨?_, ?_⟩
    · rw [Bool.eq_false_iff]
      intro he
      exact repr_ne_empty n ((String.isEmpty_iff _).1 he)
    · rw [String.all_eq]
      exact List.all_eq_true.2 (repr_all_digits n)
  rw [String.toNat?, if_pos hNat, String.foldl_eq, repr_data]
  rw [toDigitsCore_foldl n (n + 1) (Nat.lt_succ_self n) 0]
  simp

theorem splitColon_ne_nil : ∀ l : List Char, splitColon l ≠ [] := by
  intro l
  induction l with
  | nil => simp [splitColon]
  | cons c cs ih =>
    simp only [splitColon]
    by_cases h : c = ':'
    · simp [h]
    · simp only [if_neg h]
      cases hs : splitColon cs with
      | nil => simp
      | cons seg rest => simp

theorem splitColon_no_colon : ∀ l : List Char, ':' ∉ l → splitColon l = [l] := by
  intro l
  induction l with
  | nil => intro _; rfl
  | cons c cs ih =>
    intro h
    have hc : c ≠ ':' := by
      intro e
      exact h (by rw [e]; exact List.mem_cons_self _ _)
    have hcs : ':' ∉ cs := fun m => h (List.mem_cons_of_mem _ m)
    simp [splitColon, if_neg hc, ih hcs]

theorem splitColon_append (l₁ l₂ : List Char) (h : ':' ∉ l₁) :
    splitColon (l₁ ++ ':' :: l₂) = l₁ :: splitColon l₂ := by
  induction l₁ with
  | nil => simp [splitColon]
  | cons c cs ih =>
    have hc : c ≠ ':' := by
      intro e
      exact h (by rw [e]; exact List.mem_cons_self _ _)
    have hcs : ':' ∉ cs := fun m => h (List.mem_cons_of_mem _ m)
    simp only [List.cons_append, splitColon, if_neg hc, List.append_eq, ih hcs]

theorem splitColon_head (l : List Char) :
    (splitColon l).head? = some (l.takeWhile fun c => c != ':') := by
  induction l with
  | nil => rfl
  | cons c cs ih =>
    by_cases h : c = ':'
    · subst h
      simp [splitColon, List.takeWhile_cons]
    · simp only [splitColon, if_neg h]
      cases hs : splitColon cs with
      | nil => exact absurd hs (splitColon_ne_nil cs)
      | cons seg rest =>
        rw [hs] at ih
        simp only [List.head?_cons, Option.some_inj] at ih
        simp [List.takeWhile_cons, h, ih]

theorem takeWhile_append_colon (l r : List Char) (h : ':' ∈ l) :
    (l ++ r).takeWhile (fun c => c != ':') = l.takeWhile (fun c => c != ':') := by
  induction l with
  | nil => simp at h
  | cons c cs ih =>
    by_cases hc : c = ':'
    · subst hc
      simp [List.takeWhile_cons]
    · have hcs : ':' ∈ cs := by
        rcases List.mem_cons.1 h with e | m
        · exact absurd e.symm hc
        · exact m
      simp [List.takeWhile_cons, hc, ih hcs]

theorem takeWhile_colon_ne (l : List Char) (h : ':' ∈ l) :
    l.takeWhile (fun c => c != ':') ≠ l := by
  intro e
  have hmem : ':' ∈ l.takeWhile (fun c => c != ':') := by rw [e]; exact h
  have := List.mem_takeWhile_imp hmem
  simp at this

theorem killKey_data (u : String) (pid : Nat) :
    (killKey u pid).data = u.data ++ ':' :: (Nat.repr pid).data := by
  show (u ++ ":" ++ Nat.repr pid).data = u.data ++ ':' :: (Nat.repr pid).data
  rw [String.data_append, String.data_append]
  simp

theorem jsSplitTwo_killKey (u : String) (pid : Nat) (h : ':' ∉ u.data) :
    jsSplitTwo (killKey u pid) = [u, toString pid] := by
  unfold jsSplitTwo
  rw [killKey_data, splitColon_append _ _ h,
    splitColon_no_colon _ (repr_no_colon pid)]
  rfl

theorem parsedUser_killKey (u : String) (pid : Nat) (h : ':' ∉ u.data) :
    parsedUser (killKey u pid) = u := by
  rw [parsedUser, jsSplitTwo_killKey u pid h]
  rfl

theorem parsedPid_killKey (u : String) (pid : Nat) (h : ':' ∉ u.data) :
    parsedPid (killKey u pid) = some pid := by
  rw [parsedPid, jsSplitTwo_killKey u pid h]
  show jsNumberPid (some (Nat.repr pid)) = some pid
  rw [jsNumberPid, if_neg (repr_ne_empty pid)]
  exact toNat?_repr pid

theorem parsedUser_eq_takeWhile (key : String) :
    parsedUser key = String.mk (key.data.takeWhile fun c => c != ':') := by
  unfold parsedUser jsSplitTwo
  cases hs : splitColon key.data with
  | nil => exact absurd hs (splitColon_ne_nil _)
  | cons seg rest =>
    have hh := splitColon_head key.data
    rw [hs] at hh
    simp only [List.head?_cons, Option.some_inj] at hh
    simp [hh]

theorem parsedUser_colon_ne (u : String) (pid : Nat) (h : ':' ∈ u.data) :
    parsedUser (killKey u pid) ≠ u := by
  rw [parsedUser_eq_takeWhile, killKey_data]
  rw [show u.data ++ ':' :: (Nat.repr pid).data
      = u.data ++ (':' :: (Nat.repr pid).data) from rfl]
  rw [takeWhile_append_colon _ _ h]
  intro e
  apply takeWhile_colon_ne u.data h
  have hd : (String.mk (u.data.takeWhile fun c => c != ':')).data = u.data :=
    congrArg String.data e
  simpa using hd

theorem mem_reconcileKilling (prev : List String) (parsed : AdminStatsResponse)
    (key : String) :
    key ∈ reconcileKilling prev parsed ↔
      key ∈ prev ∧ keepKilling parsed key = true := by
  unfold reconcileKilling
  by_cases h : prev.isEmpty
  · rw [List.isEmpty_iff] at h
    subst h
    simp
  · simp [h, List.mem_filter]

theorem keepKilling_iff (parsed : AdminStatsResponse) (key : String) :
    keepKilling parsed key = true ↔
      ∃ pids p, userPids parsed.users (parsedUser key) = some pids ∧
        parsedPid key = some p ∧ p ∈ pids := by
  unfold keepKilling
  cases hu : userPids parsed.users (parsedUser key) with
  | none => simp [hu]
  | some pids =>
    cases hp : parsedPid key with
    | none => simp [hp]
    | some p => simp [hu, hp, List.contains_eq_any_beq, List.any_beq]

theorem mapPrevGet_some (users : List AdminUserRow) (name : String)
    (p : AdminUserRow) (h : mapPrevGet users name = some p) :
    p ∈ users ∧ p.username = name := by
  unfold mapPrevGet at h
  have hb := List.find?_some h
  exact ⟨List.mem_reverse.1 (List.mem_of_find?_eq_some h),
    eq_of_beq (by simpa using hb)⟩

theorem mapPrevGet_none (users : List AdminUserRow) (name : String)
    (h : mapPrevGet users name = none) :
    ∀ p ∈ users, p.username ≠ name := by
  intro p hp
  have := List.find?_eq_none.1 h p (List.mem_reverse.2 hp)
  simpa using this

theorem insertCmp_filter {α : Type} (cmp : α → α → Rat) (p : α → Bool) (x : α)
    (hx : p x = true → ∀ y, p y = true → cmp x y = 0) :
    ∀ l : List α, (insertCmp cmp x l).filter p =
      if p x then x :: l.filter p else l.filter p := by
  intro l
  induction l with
  | nil =>
    by_cases hpx : p x <;> simp [insertCmp, List.filter, hpx]
  | cons y ys ih =>
    by_cases hcy : cmp x y ≤ 0
    · simp only [insertCmp, if_pos hcy]
      by_cases hpx : p x <;> simp [List.filter_cons, hpx]
    · simp only [insertCmp, if_neg hcy]
      by_cases hpy : p y
      · by_cases hpx : p x
        · exact absurd (hx hpx y hpy) fun e => hcy (le_of_eq e)
        · simp [List.filter_cons, hpy, hpx, ih]
      · by_cases hpx : p x <;> simp [List.filter_cons, hpy, hpx, ih]

theorem sortCmp_filter {α : Type} (cmp : α → α → Rat) (p : α → Bool)
    (hp : ∀ x y, p x = true → p y = true → cmp x y = 0) :
    ∀ l : List α, (sortCmp cmp l).filter p = l.filter p := by
  intro l
  induction l with
  | nil => rfl
  | cons x xs ih =>
    simp only [sortCmp]
    rw [insertCmp_filter cmp p x (fun hx y hy => hp x y hx hy)]
    by_cases hpx : p x <;> simp [List.filter_cons, hpx, ih]

theorem closeIter_state (s : DashState) (h : s.cancelled = false) :
    ∀ k, (closeIter s k).cancelled = false ∧
      (closeIter s k).reconnectAttempts = s.reconnectAttempts + k := by
  intro k
  induction k with
  | zero => exact ⟨h, rfl⟩
  | succ k ih =>
    obtain ⟨hc, ha⟩ := ih
    constructor
    · simp [closeIter, step, hc]
    · simp [closeIter, step, hc, ha]
      omega

theorem step_cancelled_invariant (s : DashState) (e : DashEvent)
    (h : s.cancelled = true) :
    (step s e).1.cancelled = true ∧ (step s e).2.opensSocket = false ∧
      (step s e).2.schedulesReconnect = none := by
  cases e with
  | socketMessage payload => cases payload <;> simp [step, h, noEffect]
  | _ => simp [step, h, noEffect]

/-- C2: for every previous merged view (including the absent one of the
first call) and new snapshot, the username sequence of the merged view
returned by mergeStats is exactly the username sequence of the new
snapshot, in the new snapshot's order; hence a session present before but
absent from the new snapshot is absent from the merged view. -/
theorem C2_merged_usernames (prev : Option AdminStatsResponse)
    (next : AdminStatsResponse) :
    (mergeStats prev next).users.map AdminUserRow.username
      = next.users.map AdminUserRow.username := by
  cases prev with
  | none => rfl
  | some p =>
    simp only [mergeStats, List.map_map]
    apply List.map_congr_left
    intro u _
    simp only [Function.comp_apply]
    cases hfind : mapPrevGet p.users u.username with
    | none => rfl
    | some q =>
      have hq := List.find?_some hfind
      by_cases h : shallowEqualUser q u
      · simp [h, eq_of_beq hq]
      · simp [h]

/-- C1, counterexample: two consecutive parses of byte-identical data for
bob (all scalar fields equal, jobs equal as sets of (pid, command,
elapsedSeconds) triples, so equal in the field-by-field sense the claim
describes), yet the merged view holds the new row object, not the
previous one: shallowEqual compares the jobs field by reference and the
two jobs arrays are distinct objects. -/
theorem C1_counterexample :
    specRowFieldsEq cxPrevRow cxNextRow = true ∧
      (mergeStats (some cxPrevStats) cxNextStats).users = [cxNextRow] ∧
      cxNextRow ≠ cxPrevRow := by
  decide

/-- C1, as amended: mergeStats compares each SessionRow of the new
snapshot field-by-field against the row with the same username in the
previous view, with the nested jobs compared by strict reference equality
of the arrays rather than by the set of their (pid, command,
elapsedSeconds) triples; whenever all fields in that sense are equal the
merged view contains the previous row object itself, otherwise the new
row object.  The hypotheses record that usernames are unique within the
previous view (a §3 invariant of the data model) and that the new
snapshot's rows are fresh objects, as every JSON.parse output is. -/
theorem C1_merge_reuses_by_reference (prev next : AdminStatsResponse)
    (hnodup : (prev.users.map AdminUserRow.username).Nodup)
    (hfresh : ∀ p ∈ prev.users, ∀ u ∈ next.users, p.ref ≠ u.ref)
    (i : Nat) (u : AdminUserRow) (hu : next.users[i]? = some u) :
    (∃ p ∈ prev.users, p.username = u.username ∧
        specRowFieldsEqRef p u = true ∧
        (mergeStats (some prev) next).users[i]? = some p) ∨
    ((∀ p ∈ prev.users, p.username = u.username →
        specRowFieldsEqRef p u = false) ∧
      (mergeStats (some prev) next).users[i]? = some u) := by
  have hmem : u ∈ next.users := by
    have hlt : i < next.users.length := by
      by_contra hge
      rw [List.getElem?_eq_none (by omega)] at hu
      exact Option.noConfusion hu
    have hg : next.users[i]? = some next.users[i] := List.getElem?_eq_getElem hlt
    rw [hg, Option.some_inj] at hu
    rw [← hu]
    exact List.getElem_mem hlt
  have hmap : (mergeStats (some prev) next).users[i]?
      = some (match mapPrevGet prev.users u.username with
              | some p => if shallowEqualUser p u then p else u
              | none => u) := by
    simp only [mergeStats, List.getElem?_map, hu, Option.map_some']
  cases hfind : mapPrevGet prev.users u.username with
  | none =>
    right
    refine ⟨?_, by rw [hmap, hfind]⟩
    intro p hp hpu
    exact absurd hpu (mapPrevGet_none prev.users u.username hfind p hp)
  | some p0 =>
    obtain ⟨hp0mem, hp0name⟩ := mapPrevGet_some prev.users u.username p0 hfind
    have href : (p0.ref == u.ref) = false :=
      beq_eq_false_iff_ne.2 (hfresh p0 hp0mem u hmem)
    have hsh : shallowEqualUser p0 u = specRowFieldsEqRef p0 u := by
      rw [shallowEqualUser, specRowFieldsEqRef, href, Bool.false_or]
    by_cases hEq : specRowFieldsEqRef p0 u = true
    · left
      refine ⟨p0, hp0mem, hp0name, hEq, ?_⟩
      rw [hmap, hfind]
      simp [hsh, hEq]
    · right
      have hEq' : specRowFieldsEqRef p0 u = false := by
        rw [Bool.eq_false_iff]
        exact hEq
      refine ⟨?_, ?_⟩
      · intro p hp hpu
        have : p = p0 := by
          apply List.inj_on_of_nodup_map hnodup hp hp0mem
          rw [hpu, hp0name]
        rw [this]
        exact hEq'
      · rw [hmap, hfind]
        simp [hsh, hEq']

/-- C1, witness: the amended theorem applied to the jobless row of carol,
whose previous object is reused. -/
theorem C1_witness :
    ((w1PrevStats.users.map AdminUserRow.username).Nodup ∧
      (∀ p ∈ w1PrevStats.users, ∀ u ∈ w1NextStats.users, p.ref ≠ u.ref) ∧
      w1NextStats.users[0]? = some w1NextRow) ∧
    ((∃ p ∈ w1PrevStats.users, p.username = w1NextRow.username ∧
        specRowFieldsEqRef p w1NextRow = true ∧
        (mergeStats (some w1PrevStats) w1NextStats).users[0]? = some p) ∨
      ((∀ p ∈ w1PrevStats.users, p.username = w1NextRow.username →
          specRowFieldsEqRef p w1NextRow = false) ∧
        (mergeStats (some w1PrevStats) w1NextStats).users[0]? = some w1NextRow)) :=
  ⟨⟨by decide, by decide, by decide⟩,
    C1_merge_reuses_by_reference w1PrevStats w1NextStats (by decide) (by decide)
      0 w1NextRow (by decide)⟩

/-- C3, counterexample: a pending marker for the session "x:7" and pid 9.
The snapshot still lists session "x:7" with a job of pid 9, so the claim
says the marker is retained; the reconciliation step instead parses the
key "x:7:9" back as ("x", 7), finds no session "x", and removes the
marker, leaving an empty pending set. -/
theorem C3_counterexample :
    reconcileKilling [killKey "x:7" 9] c3Stats = [] ∧
      userPids c3Stats.users "x:7" = some [9] := by
  decide

/-- C3, as amended: for every pending set, snapshot and marker (u, pid)
whose username contains no ':' character, the reconciliation step retains
the marker if and only if it was pending and the snapshot lists session u
with some job of pid pid; equivalently it removes the marker exactly when
u is absent or present with no job of that pid.  For usernames containing
':' the key parses back to a different pair and the equivalence fails, as
the counterexample shows. -/
theorem C3_reconcile_pending_iff (prev : List String)
    (parsed : AdminStatsResponse) (u : String) (pid : Nat)
    (hu : ':' ∉ u.data) :
    killKey u pid ∈ reconcileKilling prev parsed ↔
      killKey u pid ∈ prev ∧
        ∃ pids, userPids parsed.users u = some pids ∧ pid ∈ pids := by
  rw [mem_reconcileKilling, keepKilling_iff,
    parsedUser_killKey u pid hu, parsedPid_killKey u pid hu]
  constructor
  · rintro ⟨hmem, pids, p, hlook, hp, hpin⟩
    rw [Option.some_inj] at hp
    exact ⟨hmem, pids, hlook, hp ▸ hpin⟩
  · rintro ⟨hmem, pids, hlook, hpin⟩
    exact ⟨hmem, pids, pid, hlook, rfl, hpin⟩

/-- C3, witness: the scenario of the claim, with the username bob free of
colons: while pid 42 is still listed the marker stays, and once a
snapshot no longer lists pid 42 the pending set empties. -/
theorem C3_witness :
    (':' ∉ ("bob" : String).data) ∧
      (killKey "bob" 42 ∈ reconcileKilling [killKey "bob" 42] snapWith42 ↔
        killKey "bob" 42 ∈ [killKey "bob" 42] ∧
          ∃ pids, userPids snapWith42.users "bob" = some pids ∧ 42 ∈ pids) ∧
      (killKey "bob" 42 ∈ reconcileKilling [killKey "bob" 42] snapWithout42 ↔
        killKey "bob" 42 ∈ [killKey "bob" 42] ∧
          ∃ pids, userPids snapWithout42.users "bob" = some pids ∧ 42 ∈ pids) :=
  ⟨by decide,
    C3_reconcile_pending_iff [killKey "bob" 42] snapWith42 "bob" 42 (by decide),
    C3_reconcile_pending_iff [killKey "bob" 42] snapWithout42 "bob" 42 (by decide)⟩

/-- C4: when the control call of an issued kill (username, pid) fails, the
rejection handler itself removes the pending marker, leaves the merged
view (stats and its lastStats mirror) untouched, appends an error notice
for the operator, and neither opens a socket nor schedules a reconnect;
no snapshot is involved. -/
theorem C4_kill_failure_rollback (s : DashState) (uname : String) (pid : Nat)
    (msg : String) :
    killKey uname pid ∉
        (step s (DashEvent.killFailed uname pid msg)).1.killingJobs ∧
      (step s (DashEvent.killFailed uname pid msg)).1.stats = s.stats ∧
      (step s (DashEvent.killFailed uname pid msg)).1.lastStats = s.lastStats ∧
      (step s (DashEvent.killFailed uname pid msg)).1.notices =
        s.notices ++ [{ kind := "error", title := "Kill Failed", message := msg }] ∧
      (step s (DashEvent.killFailed uname pid msg)).2 = noEffect := by
  refine ⟨?_, rfl, rfl, rfl, rfl⟩
  simp [step, setDelete, List.mem_filter]

/-- C5: starting from a state whose retry counter was just reset and whose
channel was not locally closed, the n-th consecutive close (n from 1)
schedules a reconnect after min(15000, 800 * 2^(n-1)) milliseconds — so
closes 1 through 6 schedule 800, 1600, 3200, 6400, 12800 and 15000 ms —
and entering the open state resets the retry counter to 0. -/
theorem C5_backoff_schedule (s : DashState) (n : Nat) (hc : s.cancelled = false)
    (ha : s.reconnectAttempts = 0) (hn : 1 ≤ n) :
    nthCloseDelay s n = some (min 15000 (800 * 2 ^ (n - 1))) ∧
      ((List.range 6).map fun i => nthCloseDelay s (i + 1)) =
        [some 800, some 1600, some 3200, some 6400, some 12800, some 15000] ∧
      ∀ s₂ : DashState, (step s₂ DashEvent.socketOpen).1.reconnectAttempts = 0 := by
  have key : ∀ m, 1 ≤ m → nthCloseDelay s m = some (reconnectDelay m) := by
    intro m hm
    obtain ⟨hc', ha'⟩ := closeIter_state s hc (m - 1)
    have hm1 : (closeIter s (m - 1)).reconnectAttempts + 1 = m := by
      rw [ha', ha]
      omega
    rw [nthCloseDelay]
    simp only [step, hc', Bool.false_eq_true, if_false]
    rw [hm1]
  refine ⟨?_, ?_, fun s₂ => by simp [step]⟩
  · rw [key n hn]
    rfl
  · have hr : List.range 6 = [0, 1, 2, 3, 4, 5] := by decide
    rw [hr]
    simp only [List.map_cons, List.map_nil]
    rw [key 1 (by norm_num), key 2 (by norm_num), key 3 (by norm_num),
      key 4 (by norm_num), key 5 (by norm_num), key 6 (by norm_num)]
    decide

/-- C5, witness: the sixth consecutive close from a fresh dashboard state
hits the 15000 ms cap. -/
theorem C5_witness :
    initState.cancelled = false ∧ initState.reconnectAttempts = 0 ∧ 1 ≤ 6 ∧
      nthCloseDelay initState 6 = some (min 15000 (800 * 2 ^ (6 - 1))) :=
  ⟨rfl, rfl, by norm_num,
    (C5_backoff_schedule initState 6 rfl rfl (by norm_num)).1⟩

/-- C6: after the explicit local close of the channel (the effect cleanup
setting the cancelled flag), no sequence of further events — pending
backoff timers firing, channel close events, messages, anything — ever
opens a socket or schedules a reconnect, and the state stays cancelled. -/
theorem C6_no_reconnect_after_teardown (s : DashState) (evs : List DashEvent) :
    ((runEffects (step s DashEvent.teardown).1 evs).all fun eff =>
        !eff.opensSocket && eff.schedulesReconnect.isNone) = true ∧
      (runState (step s DashEvent.teardown).1 evs).cancelled = true := by
  have hs : (step s DashEvent.teardown).1.cancelled = true := by simp [step]
  suffices h : ∀ t : DashState, t.cancelled = true →
      ((runEffects t evs).all fun eff =>
        !eff.opensSocket && eff.schedulesReconnect.isNone) = true ∧
      (runState t evs).cancelled = true from h _ hs
  induction evs with
  | nil =>
    intro t ht
    exact ⟨rfl, ht⟩
  | cons e es ih =>
    intro t ht
    obtain ⟨hc, ho, hn⟩ := step_cancelled_invariant t e ht
    obtain ⟨h1, h2⟩ := ih (step t e).1 hc
    refine ⟨?_, h2⟩
    simp [runEffects, ho, hn, h1]

/-- C7: a channel message whose payload fails to decode is dropped whole:
the handler's catch leaves the merged view, the lastStats mirror, the
pending action set, the retry counter and the cancelled flag exactly as
they were, opens no socket and schedules no reconnect. -/
theorem C7_decode_failure_dropped (s : DashState) :
    step s (DashEvent.socketMessage none) = (s, noEffect) := rfl

/-- C8, counterexample: amy has no quota_bytes key and a 1000-byte
workspace, bob sits at the 50 MiB quota with a 2000-byte workspace.  Under
the claimed comparison — ratios with the 50 MiB display floor applied to
the absent quota — amy sorts strictly below bob; the comparator in the
code divides by (quota_bytes || 1) = 1 instead and puts amy strictly
above bob, while the percentage display for amy does use the 50 MiB
floor. -/
theorem C8_counterexample :
    specStorageRatio c8RowA < specStorageRatio c8RowB ∧
      0 < rowCmp SortKey.storage 1 c8RowA c8RowB ∧
      renderQuota c8RowA = 52428800 ∧
      quotaOrOne c8RowA.quota_bytes = 1 := by
  refine ⟨?_, ?_, by decide, by decide⟩ <;>
    norm_num [specStorageRatio, storageRatio, rowCmp, quotaOrOne,
      c8RowA, c8RowB, cxBase]

/-- C8, as amended: the storage comparator orders rows by the ratio
workspace_size / (quota_bytes || 1), whose divisor is 1 — not the 50 MiB
floor — when quota_bytes is absent (or zero); the 50 MiB floor is applied
only by the storage display.  Stated for the ascending direction. -/
theorem C8_storage_cmp_ratio (a b u : AdminUserRow)
    (hq : u.quota_bytes = none) :
    (rowCmp SortKey.storage 1 a b < 0 ↔ storageRatio a < storageRatio b) ∧
      (rowCmp SortKey.storage 1 a b = 0 ↔ storageRatio a = storageRatio b) ∧
      quotaOrOne u.quota_bytes = 1 ∧ renderQuota u = 50 * 1024 * 1024 := by
  refine ⟨?_, ?_, by simp [quotaOrOne, hq], by simp [renderQuota, hq]⟩
  · rw [rowCmp]
    push_cast
    rw [mul_one, sub_neg]
  · rw [rowCmp]
    push_cast
    rw [mul_one, sub_eq_zero]

/-- C8, witness: the amended characterisation applied to the two concrete
rows of the counterexample. -/
theorem C8_witness :
    c8RowA.quota_bytes = none ∧
      (rowCmp SortKey.storage 1 c8RowA c8RowB < 0 ↔
        storageRatio c8RowA < storageRatio c8RowB) ∧
      quotaOrOne c8RowA.quota_bytes = 1 :=
  ⟨rfl, (C8_storage_cmp_ratio c8RowA c8RowB c8RowA rfl).1,
    (C8_storage_cmp_ratio c8RowA c8RowB c8RowA rfl).2.2.1⟩

theorem trim_empty : ("" : String).trim = "" := by
  simp [String.trim, Substring.trim, String.toSubstring, Substring.toString]
  rw [Substring.takeWhileAux]
  simp only [show ¬((0 : String.Pos) < (0 : String.Pos)) from by decide, dif_neg,
    not_false_iff]
  rw [Substring.takeRightWhileAux]
  simp only [show ¬((0 : String.Pos) < (0 : String.Pos)) from by decide, dif_neg,
    not_false_iff]
  decide

/-- C9: the projector's sort is stable — for every input, filter text,
sort key and direction, any family of rows that pairwise compare equal
under the active comparator keeps exactly its relative order from the
(filtered) input — and on the claim's example rows sorting by cpu
ascending keeps [bob, amy] while sorting by username ascending yields
[amy, bob].  The projector is a pure function on immutable lists, so it
cannot mutate its input. -/
theorem C9_projector_stable :
    (∀ (stats : Option AdminStatsResponse) (ftext : String) (k : SortKey)
        (dir : Int) (p : AdminUserRow → Bool),
        (∀ x y, p x = true → p y = true → rowCmp k dir x y = 0) →
        (filteredUsers stats ftext k dir).filter p =
          (matchingRows stats ftext).filter p) ∧
      filteredUsers (some c9Stats) "" SortKey.cpu 1 = [c9Bob, c9Amy] ∧
      filteredUsers (some c9Stats) "" SortKey.username 1 = [c9Amy, c9Bob] := by
  have hrows : matchingRows (some c9Stats) "" = [c9Bob, c9Amy] := by
    rw [matchingRows, if_neg (by rw [trim_empty]; simp : ¬("" : String).trim ≠ "")]
    rfl
  have hcpu : rowCmp SortKey.cpu 1 c9Bob c9Amy = 0 := by
    norm_num [rowCmp, c9Bob, c9Amy, cxBase]
  have huser : rowCmp SortKey.username 1 c9Bob c9Amy = 1 := by
    have : localeCmp "bob" "amy" = 1 := by
      rw [localeCmp, (by decide : compare ("bob" : String) "amy" = Ordering.gt)]
    norm_num [rowCmp, c9Bob, c9Amy, cxBase, this]
  refine ⟨?_, ?_, ?_⟩
  · intro stats ftext k dir p hp
    rw [filteredUsers]
    exact sortCmp_filter (rowCmp k dir) p hp (matchingRows stats ftext)
  · rw [filteredUsers, hrows]
    simp [sortCmp, insertCmp, hcpu]
  · rw [filteredUsers, hrows]
    simp [sortCmp, insertCmp, huser]

/-- C9, witness: the stability statement applied to the predicate that
selects the rows at 10 percent cpu, all of which tie under the cpu
comparator. -/
theorem C9_witness :
    (∀ x y : AdminUserRow, (x.cpu_percent == (10 : Rat)) = true →
        (y.cpu_percent == (10 : Rat)) = true →
        rowCmp SortKey.cpu 1 x y = 0) ∧
      (filteredUsers (some c9Stats) "" SortKey.cpu 1).filter
          (fun r => r.cpu_percent == (10 : Rat)) =
        (matchingRows (some c9Stats) "").filter
          (fun r => r.cpu_percent == (10 : Rat)) := by
  have hp : ∀ x y : AdminUserRow, (x.cpu_percent == (10 : Rat)) = true →
      (y.cpu_percent == (10 : Rat)) = true → rowCmp SortKey.cpu 1 x y = 0 := by
    intro x y hx hy
    have hx' : x.cpu_percent = 10 := eq_of_beq hx
    have hy' : y.cpu_percent = 10 := eq_of_beq hy
    rw [rowCmp, hx', hy']
    norm_num
  exact ⟨hp, C9_projector_stable.1 (some c9Stats) "" SortKey.cpu 1 _ hp⟩

/-- C10, counterexample: the pending marker for session "a:1" and pid 7
yields the key "a:1:7", which reconciliation re-parses as ("a", 1).  The
snapshot lists session "a" with a job of pid 1 — and also still lists the
targeted pid 7 under "a:1" — so, against the claim's assertion that such
a marker is removed by the first reconciliation, the marker is kept. -/
theorem C10_counterexample :
    reconcileKilling [killKey "a:1" 7] c10Stats = [killKey "a:1" 7] ∧
      userPids c10Stats.users "a:1" = some [7] := by
  have hsplit : jsSplitTwo (killKey "a:1" 7) = ["a", "1"] := by decide
  have hpid : parsedPid (killKey "a:1" 7) = some 1 := by
    rw [parsedPid, hsplit]
    show jsNumberPid (some "1") = some 1
    rw [jsNumberPid, if_neg (by decide : ¬("1" : String) = "")]
    rw [(by decide : ("1" : String) = Nat.repr 1)]
    exact toNat?_repr 1
  have huser : parsedUser (killKey "a:1" 7) = "a" := by
    rw [parsedUser, hsplit]
    rfl
  have hkeep : keepKilling c10Stats (killKey "a:1" 7) = true := by
    rw [keepKilling, huser, hpid,
      (by decide : userPids c10Stats.users "a" = some [1])]
    decide
  constructor
  · rw [reconcileKilling,
      if_neg (by decide : ¬([killKey "a:1" 7] : List String).isEmpty = true)]
    simp [List.filter, hkeep]
  · decide

/-- C10, as amended: pending kill markers are keyed by the string
username ++ ":" ++ pid and re-parsed by splitting at ':' with limit 2, so
for every marker whose username contains ':' the parsed username differs
from the original; such a marker is removed by the first reconciliation
unless — not "even if" — the misparsed pair happens to match the
snapshot: it survives exactly when it was pending and the parsed username
names a session whose jobs contain the parsed pid. -/
theorem C10_colon_misparse (u : String) (pid : Nat) (hc : ':' ∈ u.data) :
    parsedUser (killKey u pid) ≠ u ∧
      ∀ (prev : List String) (parsed : AdminStatsResponse),
        (killKey u pid ∈ reconcileKilling prev parsed ↔
          killKey u pid ∈ prev ∧
            ∃ pids p,
              userPids parsed.users (parsedUser (killKey u pid)) = some pids ∧
                parsedPid (killKey u pid) = some p ∧ p ∈ pids) := by
  refine ⟨parsedUser_colon_ne u pid hc, ?_⟩
  intro prev parsed
  rw [mem_reconcileKilling, keepKilling_iff]

/-- C10, witness: the misparse theorem applied to the marker ("a:1", 7)
of the counterexample. -/
theorem C10_witness :
    (':' ∈ ("a:1" : String).data) ∧ parsedUser (killKey "a:1" 7) ≠ "a:1" :=
  ⟨by decide, (C10_colon_misparse "a:1" 7 (by decide)).1⟩
